import Mathlib

/-!
Verification development for the offline-first data layer of the
emergency-triage progressive web application.

The definitions below are a shallow embedding of the canonical revision of
the service worker (src/sw.js, first document) and of the foreground
application (src/app.js).  Asynchronous platform primitives are made
explicit: the cache storage becomes a list of names, a named cache becomes
a list of keys in insertion order, the structured store becomes a list of
patient records, network and storage outcomes become explicit parameters,
and each event handler becomes a pure function from its inputs to a result
record collecting the new state and the observable effects (responses,
posted messages, network requests).
-/

namespace TriagePWA

/-- Code-unit lexicographic order on strings, as character lists.  This is
the order the structured store uses on string primary keys, so records read
through an index come back sorted by it. -/
def charListLe (a b : List Char) : Bool :=
  match a, b with
  | [], _ => true
  | _ :: _, [] => false
  | c :: cs, d :: ds => if c < d then true else if d < c then false else charListLe cs ds

/-- A response body is either raw text (html, plain text, svg) or a JSON
object produced by JSON.stringify.  Every object the service worker
stringifies has flat string-valued fields, so a JSON body is an ordered
field list. -/
inductive Body where
  | text (s : String)
  | json (fields : List (String × String))
deriving DecidableEq, Repr

/-- Field lookup on a JSON body; none on text bodies or missing keys. -/
def Body.jsonField : Body → String → Option String
  | .json fields, k => fields.lookup k
  | _, _ => none

/-- An HTTP response as the caching strategies observe it. -/
structure Response where
  status : Nat
  body : Body
  contentType : String
deriving DecidableEq, Repr

/-- response.ok of the platform: status in the 2xx range. -/
def Response.ok (r : Response) : Bool :=
  decide (200 ≤ r.status) && decide (r.status < 300)

-- Constants of src/sw.js lines 2-5 (CACHE_NAME interpolates CACHE_VERSION).
def CACHE_VERSION : String := "v2.1.0"

def CACHE_NAME : String := "upline-triage-v2.1.0"

def DYNAMIC_CACHE : String := "upline-dynamic-v2"

def OFFLINE_URL : String := "/offline.html"

/-- The install manifest, src/sw.js lines 8-22. -/
def urlsToCache : List String :=
  ["/", "/index.html", "/manifest.json", "/styles.css", "/app.js",
   "/icon-192.png", "/icon-512.png", "/icons/icon-72x72.png",
   "/icons/icon-96x96.png", "/icons/icon-128x128.png",
   "/icons/icon-144x144.png", "/icons/icon-152x152.png", "/offline.html"]

/-- Outcome of the install event: whether the promise handed to waitUntil
fulfilled (the platform then treats installation as successful), the
contents of the freshly opened shell cache, and whether skipWaiting ran. -/
structure InstallResult where
  settled : Bool
  shellCache : List String
  skipWaitingCalled : Bool
deriving DecidableEq, Repr

/-- Install handler, src/sw.js lines 25-42.  cache.addAll is atomic: it
rejects if any fetch fails or returns a non-2xx response and then stores
nothing.  On rejection the .then(skipWaiting) step is skipped and the final
.catch logs the error and fulfills, so the event always settles
successfully. -/
def installEvent (fetchOk : String → Bool) : InstallResult :=
  if urlsToCache.all fetchOk then
    { settled := true, shellCache := urlsToCache, skipWaitingCalled := true }
  else
    { settled := true, shellCache := [], skipWaitingCalled := false }

/-- The deletion test of the activate handler, src/sw.js line 53: a cache
is deleted only when it differs from both current names AND begins with
the shell generation marker. -/
def shouldDeleteCache (n : String) : Bool :=
  n != CACHE_NAME && n != DYNAMIC_CACHE && "upline-triage-".data.isPrefixOf n.data

/-- Activate handler cache cleanup, src/sw.js lines 45-65: the caches that
survive the cleanup. -/
def activateCleanup (names : List String) : List String :=
  names.filter (fun n => !shouldDeleteCache n)

/-- The caches the activate handler deletes on one run. -/
def deletedCaches (names : List String) : List String :=
  names.filter shouldDeleteCache

/-- A settled fetch promise: a response, or a rejection (network
failure). -/
inductive FetchResult where
  | ok (r : Response)
  | networkError
deriving DecidableEq, Repr

/-- Result of running one fetch strategy: the value handed to respondWith
(networkError models a rejection reaching the caller) and the entry
written into the dynamic cache, if any. -/
structure FetchOutcome where
  response : FetchResult
  dynamicPut : Option Response
deriving DecidableEq, Repr

/-- The synthesized offline body for API requests, src/sw.js lines 122-128. -/
def offlineApiResponse (now : String) : Response :=
  { status := 200,
    body := .json
      [("error", "You are offline"),
       ("timestamp", now),
       ("cache", "miss")],
    contentType := "application/json" }

/-- API strategy (network first), src/sw.js lines 100-130.  network is the
outcome of fetch, cached the outcome of caches.match for this request. -/
def apiFirstStrategy (network : FetchResult) (cached : Option Response)
    (now : String) : FetchOutcome :=
  match network with
  | .ok resp =>
    { response := .ok resp, dynamicPut := if resp.ok then some resp else none }
  | .networkError =>
    match cached with
    | some c => { response := .ok c, dynamicPut := none }
    | none => { response := .ok (offlineApiResponse now), dynamicPut := none }

/-- The generated inline offline page, src/sw.js lines 159-179 (html body
abridged to its visible text). -/
def inlineOfflinePage : Response :=
  { status := 200,
    body := .text "Offline Mode - basic triage functionality is available. Patients will be saved locally and synced when back online.",
    contentType := "text/html" }

/-- Navigation strategy, src/sw.js lines 133-181.  On network success the
cache is refreshed unconditionally; on failure it falls back to the cached
copy of the request, then the dedicated offline document, then the inline
page. -/
def navigationFirstStrategy (network : FetchResult)
    (cached cachedOffline : Option Response) : FetchOutcome :=
  match network with
  | .ok resp => { response := .ok resp, dynamicPut := some resp }
  | .networkError =>
    match cached with
    | some c => { response := .ok c, dynamicPut := none }
    | none =>
      match cachedOffline with
      | some o => { response := .ok o, dynamicPut := none }
      | none => { response := .ok inlineOfflinePage, dynamicPut := none }

/-- Cross-origin strategy, src/sw.js lines 229-249: the only strategy whose
rejection can reach the caller (the rethrow on line 247). -/
def networkFirstStrategy (network : FetchResult)
    (cached : Option Response) : FetchOutcome :=
  match network with
  | .ok resp =>
    { response := .ok resp, dynamicPut := if resp.ok then some resp else none }
  | .networkError =>
    match cached with
    | some c => { response := .ok c, dynamicPut := none }
    | none => { response := .networkError, dynamicPut := none }

/-- Dynamic cache cleanup, src/sw.js lines 262-274, over the key list of
the dynamic cache in insertion order: when more than 100 keys exist, the
slice keys[0 .. length-100) is deleted, keeping the last 100. -/
def cleanupCache (keys : List String) : List String :=
  if keys.length > 100 then keys.drop (keys.length - 100) else keys

/-- The keys one cleanup pass deletes. -/
def cleanupDeleted (keys : List String) : List String :=
  if keys.length > 100 then keys.take (keys.length - 100) else []

/-- Sync state tag of a patient record. -/
inductive SyncStatus where
  | pending
  | synced
deriving DecidableEq, Repr

/-- A patient record as the structured store holds it.  syncStatus is
optional because a record arriving from the foreground may not carry the
tag yet; info stands for the remaining (opaque) demographic and vital-sign
fields. -/
structure Patient where
  id : String
  syncStatus : Option SyncStatus
  syncedAt : Option String
  updatedAt : Option String
  info : String
deriving DecidableEq, Repr

/-- The patients object store. -/
abbrev Store := List Patient

/-- Read a record by primary key. -/
def findStore (store : Store) (pid : String) : Option Patient :=
  store.find? (fun q => q.id == pid)

/-- store.put: replace the record with the same key, or add the record. -/
def putStore (p : Patient) : Store → Store
  | [] => [p]
  | q :: s => if q.id == p.id then p :: s else q :: putStore p s

/-- Whether a record carries the pending tag. -/
def isPending (p : Patient) : Bool := p.syncStatus == some SyncStatus.pending

/-- Key order on patient records. -/
def idLe (p q : Patient) : Bool := charListLe p.id.data q.id.data

/-- getPendingPatients, src/sw.js lines 352-363: the syncStatus index
returns every record tagged pending, sorted by primary key. -/
def pendingSorted (store : Store) : List Patient :=
  List.insertionSort (fun p q => idLe p q = true) (store.filter isPending)

/-- The field stamping inside savePatient, src/sw.js lines 330-331:
syncStatus defaults to pending when absent, updatedAt is stamped. -/
def stampPatient (now : String) (p : Patient) : Patient :=
  { p with syncStatus := some (p.syncStatus.getD SyncStatus.pending),
           updatedAt := some now }

/-- savePatient, src/sw.js lines 323-338. -/
def savePatient (now : String) (p : Patient) (store : Store) : Store :=
  putStore (stampPatient now p) store

/-- The mutation markAsSynced applies to a found record,
src/sw.js lines 376-377. -/
def markSyncedPatient (now : String) (p : Patient) : Patient :=
  { p with syncStatus := some SyncStatus.synced, syncedAt := some now }

/-- markAsSynced, src/sw.js lines 365-389: re-read the record by key; when
present, store it back with syncStatus synced and a syncedAt stamp; when
absent, resolve without change. -/
def markAsSynced (now : String) (pid : String) (store : Store) : Store :=
  match findStore store pid with
  | some q => putStore (markSyncedPatient now q) store
  | none => store

/-- The completion message posted to every connected client. -/
structure BroadcastMsg where
  msgType : String
  syncedCount : Nat
deriving DecidableEq, Repr

/-- Result of one reconciler run: the store afterwards, the broadcast
posted to every connected client (none when no message was posted), and
the network requests issued during the run. -/
structure SyncRunResult where
  store : Store
  broadcast : Option BroadcastMsg
  network : List String
deriving DecidableEq, Repr

/-- The loop of syncPendingData, src/sw.js lines 405-407: each iteration
awaits markAsSynced; ok models whether that storage operation succeeds for
the given key.  A rejection aborts the loop (the surrounding try/catch),
so the returned flag records whether every record was processed. -/
def syncLoop (ok : String → Bool) (now : String) : Store → List Patient → Store × Bool
  | store, [] => (store, true)
  | store, p :: rest =>
    if ok p.id then syncLoop ok now (markAsSynced now p.id store) rest
    else (store, false)

/-- syncPendingData, src/sw.js lines 392-422.  The demo code sends nothing
over the network: it reads the pending records, returns early when there
are none, marks each one synced locally, and only when the whole loop
succeeded posts one SYNC_COMPLETE message carrying the pending count to
every client; a failure is caught and nothing is posted. -/
def syncPendingData (ok : String → Bool) (now : String) (store : Store) : SyncRunResult :=
  let pending := pendingSorted store
  if pending.isEmpty then
    { store := store, broadcast := none, network := [] }
  else
    let res := syncLoop ok now store pending
    { store := res.1,
      broadcast :=
        if res.2 then some { msgType := "SYNC_COMPLETE", syncedCount := pending.length }
        else none,
      network := [] }

/-- The reply posted for CLEAR_PENDING_DATA. -/
structure ClearReply where
  success : Bool
  cleared : Nat
deriving DecidableEq, Repr

/-- Result of the CLEAR_PENDING_DATA handler: the store afterwards, the
reply posted on the message port (none when no reply was posted), and the
network requests issued. -/
structure ClearResult where
  store : Store
  reply : Option ClearReply
  network : List String
deriving DecidableEq, Repr

/-- CLEAR_PENDING_DATA case of the message handler, src/sw.js lines
450-468.  readOk models whether the index read succeeds.  Its onsuccess
callback stores each pending record back with syncStatus synced and a
syncedAt stamp and posts the reply with the count; the onerror path is not
handled, so a failed read posts no reply at all.  No network request is
made. -/
def clearPendingData (now : String) (readOk : Bool) (store : Store) : ClearResult :=
  if readOk then
    let pending := pendingSorted store
    { store := pending.foldl (fun s p => putStore (markSyncedPatient now p) s) store,
      reply := some { success := true, cleared := pending.length },
      network := [] }
  else
    { store := store, reply := none, network := [] }

/-- A reply as the foreground bridge resolves it. -/
structure SWReply where
  success : Bool
  error : Option String
deriving DecidableEq, Repr

/-- The locally synthesized timeout failure, src/app.js line 2098. -/
def timeoutReply : SWReply := { success := false, error := some "Timeout" }

/-- sendMessageToSW, src/app.js lines 2080-2100, as a function of the
reply behaviour of the background agent: reply is none when the agent
never answers on the channel, or some (t, r) when the answer r arrives at
time t (milliseconds after the call).  The promise resolves exactly once,
with the first of the two racing resolutions: the answer when it arrives
before the 5000 ms timer, the timeout failure otherwise; the later
resolution call is absorbed by promise semantics. -/
def sendMessageToSW (reply : Option (Nat × SWReply)) : SWReply :=
  match reply with
  | some (t, r) => if t < 5000 then r else timeoutReply
  | none => timeoutReply

/-- The metadata block of the exported backup document,
src/app.js lines 930-935. -/
structure ExportMetadata where
  exportedAt : String
  totalPatients : Nat
  appVersion : String
  user : String
deriving DecidableEq, Repr

/-- The exported backup document, src/app.js lines 928-936. -/
structure ExportDoc where
  patients : List Patient
  metadata : ExportMetadata
deriving DecidableEq, Repr

/-- exportData, src/app.js lines 927-950: the document serialized into the
downloaded file. -/
def exportData (now user : String) (patients : List Patient) : ExportDoc :=
  { patients := patients,
    metadata :=
      { exportedAt := now, totalPatients := patients.length,
        appVersion := "1.0.0", user := user } }

/-- The duplicate filter of importData, src/app.js lines 973-978: keep the
first occurrence of each id, tracking the ids already seen. -/
def dedupeById (seen : List String) : List Patient → List Patient
  | [] => []
  | p :: rest =>
    if p.id ∈ seen then dedupeById seen rest
    else p :: dedupeById (p.id :: seen) rest

/-- importData, src/app.js lines 952-1000, on a well-formed document: the
imported patients are put in front of the current ones and the merged list
is filtered to the first occurrence of each id. -/
def importData (doc : ExportDoc) (current : List Patient) : List Patient :=
  dedupeById [] (doc.patients ++ current)

/-- Three demonstration records created offline, instantiating the
three-pending-patients scenario. -/
def demoStore : Store :=
  [{ id := "PAT-1", syncStatus := some SyncStatus.pending, syncedAt := none,
     updatedAt := none, info := "Alice 34 chest pain" },
   { id := "PAT-2", syncStatus := some SyncStatus.pending, syncedAt := none,
     updatedAt := none, info := "Bob 58 fracture" },
   { id := "PAT-3", syncStatus := some SyncStatus.pending, syncedAt := none,
     updatedAt := none, info := "Cara 21 burn" }]

/-- A store with one pending and one already synced record. -/
def demoMixedStore : Store :=
  [{ id := "PAT-1", syncStatus := some SyncStatus.pending, syncedAt := none,
     updatedAt := none, info := "Alice 34 chest pain" },
   { id := "PAT-2", syncStatus := some SyncStatus.synced, syncedAt := some "T0",
     updatedAt := some "T0", info := "Bob 58 fracture" }]

/-! ### Store lemmas -/

theorem findStore_id (store : Store) (pid : String) (q : Patient)
    (h : findStore store pid = some q) : q.id = pid := by
  have := List.find?_some h
  simpa using this

theorem mem_of_findStore (store : Store) (pid : String) (q : Patient)
    (h : findStore store pid = some q) : q ∈ store :=
  List.mem_of_find?_eq_some h

theorem findStore_putStore_self (p : Patient) (store : Store) :
    findStore (putStore p store) p.id = some p := by
  induction store with
  | nil => simp [findStore, putStore, List.find?]
  | cons q s ih =>
    cases hb : (q.id == p.id) with
    | true => simp [putStore, hb, findStore, List.find?]
    | false =>
      simp only [putStore, hb, Bool.false_eq_true, if_false]
      simp only [findStore, List.find?, hb] at ih ⊢
      exact ih

theorem findStore_putStore_ne (p : Patient) (store : Store) (pid : String)
    (h : p.id ≠ pid) :
    findStore (putStore p store) pid = findStore store pid := by
  have hbp : (p.id == pid) = false := by simp [h]
  induction store with
  | nil => simp [findStore, putStore, List.find?, hbp]
  | cons q s ih =>
    cases hq : (q.id == p.id) with
    | true =>
      have hq' : q.id = p.id := by simpa using hq
      have hbq : (q.id == pid) = false := by simp [hq', h]
      simp only [putStore, hq, if_true]
      simp only [findStore, List.find?, hbp, hbq]
    | false =>
      simp only [putStore, hq, Bool.false_eq_true, if_false]
      simp only [findStore, List.find?] at ih ⊢
      cases hqq : (q.id == pid) with
      | true => rfl
      | false => exact ih

theorem markSyncedPatient_id (now : String) (p : Patient) :
    (markSyncedPatient now p).id = p.id := rfl

theorem findStore_markAsSynced (now pid : String) (store : Store) (pid' : String) :
    findStore (markAsSynced now pid store) pid' =
      if pid' = pid then (findStore store pid).map (markSyncedPatient now)
      else findStore store pid' := by
  unfold markAsSynced
  cases hf : findStore store pid with
  | none =>
    by_cases hp : pid' = pid
    · subst hp; simp [hf]
    · simp [hp]
  | some q =>
    have hqid : q.id = pid := findStore_id store pid q hf
    by_cases hp : pid' = pid
    · subst hp
      have h1 := findStore_putStore_self (markSyncedPatient now q) store
      rw [markSyncedPatient_id, hqid] at h1
      simp [h1, hf]
    · have hne : (markSyncedPatient now q).id ≠ pid' := by
        rw [markSyncedPatient_id, hqid]
        exact fun hh => hp hh.symm
      rw [findStore_putStore_ne _ _ _ hne]
      simp [hp]

theorem findStore_of_mem_nodup :
    ∀ (store : Store), (store.map Patient.id).Nodup →
      ∀ p ∈ store, findStore store p.id = some p := by
  intro store
  induction store with
  | nil => intro _ p hp; cases hp
  | cons q s ih =>
    intro hnd p hp
    rw [List.map_cons, List.nodup_cons] at hnd
    rcases List.mem_cons.mp hp with hp | hp
    · subst hp; simp [findStore, List.find?]
    · have hne : (q.id == p.id) = false := by
        have : p.id ∈ s.map Patient.id := List.mem_map.mpr ⟨p, hp, rfl⟩
        have hq : q.id ≠ p.id := fun hh => hnd.1 (hh ▸ this)
        simp [hq]
      simp only [findStore, List.find?, hne]
      exact ih hnd.2 p hp

theorem syncLoop_flag (ok : String → Bool) (now : String) :
    ∀ (todo : List Patient) (store : Store),
      (syncLoop ok now store todo).2 = todo.all (fun p => ok p.id) := by
  intro todo
  induction todo with
  | nil => intro store; simp [syncLoop]
  | cons p rest ih =>
    intro store
    cases h : ok p.id with
    | true => simp [syncLoop, h, ih]
    | false => simp [syncLoop, h]

theorem syncLoop_find (ok : String → Bool) (now : String) :
    ∀ (todo : List Patient) (store : Store),
      (todo.map Patient.id).Nodup →
      ∀ pid, findStore (syncLoop ok now store todo).1 pid =
        if pid ∈ (todo.takeWhile (fun p => ok p.id)).map Patient.id
        then (findStore store pid).map (markSyncedPatient now)
        else findStore store pid := by
  intro todo
  induction todo with
  | nil => intro store _ pid; simp [syncLoop]
  | cons p rest ih =>
    intro store hnd pid
    rw [List.map_cons, List.nodup_cons] at hnd
    cases hok : ok p.id with
    | false => simp [syncLoop, hok]
    | true =>
      have hrec := ih (markAsSynced now p.id store) hnd.2 pid
      simp only [syncLoop, hok, if_true] at hrec ⊢
      rw [hrec]
      by_cases hmem : pid ∈ (rest.takeWhile (fun q => ok q.id)).map Patient.id
      · have hpid : pid ∈ rest.map Patient.id :=
          ((List.takeWhile_sublist _).map Patient.id).subset hmem
        have hne : pid ≠ p.id := fun hh => hnd.1 (hh ▸ hpid)
        rw [if_pos hmem, findStore_markAsSynced]
        rw [if_neg hne]
        rw [if_pos (by simp [List.takeWhile_cons, hok, hmem])]
      · by_cases hpp : pid = p.id
        · subst hpp
          rw [if_neg hmem, findStore_markAsSynced, if_pos rfl]
          rw [if_pos (by simp [List.takeWhile_cons, hok])]
        · rw [if_neg hmem, findStore_markAsSynced, if_neg hpp]
          rw [if_neg (by simp [List.takeWhile_cons, hok, hmem, hpp])]

theorem foldPut_find (now : String) :
    ∀ (todo : List Patient) (store : Store),
      (todo.map Patient.id).Nodup →
      (∀ p ∈ todo, findStore store p.id = some p) →
      ∀ pid,
        findStore (todo.foldl (fun s p => putStore (markSyncedPatient now p) s) store) pid =
          if pid ∈ todo.map Patient.id
          then (findStore store pid).map (markSyncedPatient now)
          else findStore store pid := by
  intro todo
  induction todo with
  | nil => intro store _ _ pid; simp
  | cons p rest ih =>
    intro store hnd hmem pid
    rw [List.map_cons, List.nodup_cons] at hnd
    have hkeep : ∀ q ∈ rest, findStore (putStore (markSyncedPatient now p) store) q.id = some q := by
      intro q hq
      have hne : (markSyncedPatient now p).id ≠ q.id := by
        rw [markSyncedPatient_id]
        exact fun hh => hnd.1 (hh ▸ List.mem_map.mpr ⟨q, hq, rfl⟩)
      rw [findStore_putStore_ne _ _ _ hne]
      exact hmem q (List.mem_cons.mpr (Or.inr hq))
    have hrec := ih (putStore (markSyncedPatient now p) store) hnd.2 hkeep pid
    simp only [List.foldl_cons]
    rw [hrec]
    by_cases hmem2 : pid ∈ rest.map Patient.id
    · have hne : pid ≠ p.id := fun hh => hnd.1 (hh ▸ hmem2)
      rw [if_pos hmem2, if_pos (by simp [hmem2])]
      rw [findStore_putStore_ne _ _ _ (by rw [markSyncedPatient_id]; exact fun hh => hne hh.symm)]
    · by_cases hpp : pid = p.id
      · subst hpp
        rw [if_neg hmem2, if_pos (by simp)]
        have h1 := findStore_putStore_self (markSyncedPatient now p) store
        rw [markSyncedPatient_id] at h1
        rw [h1, hmem p (List.mem_cons.mpr (Or.inl rfl))]
        rfl
      · rw [if_neg hmem2, if_neg (by simp [hmem2, hpp])]
        rw [findStore_putStore_ne _ _ _ (by rw [markSyncedPatient_id]; exact fun hh => hpp hh.symm)]

theorem mem_pendingSorted (store : Store) (p : Patient) :
    p ∈ pendingSorted store ↔ p ∈ store ∧ isPending p = true := by
  unfold pendingSorted
  rw [(List.perm_insertionSort _ _).mem_iff]
  simp [List.mem_filter]

theorem pendingSorted_nodup (store : Store) (h : (store.map Patient.id).Nodup) :
    ((pendingSorted store).map Patient.id).Nodup := by
  have hperm := List.perm_insertionSort
    (fun p q : Patient => idLe p q = true) (store.filter isPending)
  have hfil : ((store.filter isPending).map Patient.id).Nodup :=
    ((List.filter_sublist store).map Patient.id).nodup h
  exact ((hperm.map Patient.id).nodup_iff).mpr hfil

theorem mem_pendingSorted_ids (store : Store) (h : (store.map Patient.id).Nodup)
    (pid : String) :
    pid ∈ (pendingSorted store).map Patient.id ↔
      ∃ q, findStore store pid = some q ∧ isPending q = true := by
  constructor
  · intro hmem
    obtain ⟨p, hp, rfl⟩ := List.mem_map.mp hmem
    have hpp := (mem_pendingSorted store p).mp hp
    exact ⟨p, findStore_of_mem_nodup store h p hpp.1, hpp.2⟩
  · rintro ⟨q, hfind, hpend⟩
    have hq : q ∈ store := mem_of_findStore store pid q hfind
    have hid : q.id = pid := findStore_id store pid q hfind
    subst hid
    exact List.mem_map.mpr ⟨q, (mem_pendingSorted store q).mpr ⟨hq, hpend⟩, rfl⟩

theorem dedupeById_of_nodup :
    ∀ (l : List Patient) (seen : List String),
      (l.map Patient.id).Nodup → (∀ p ∈ l, p.id ∉ seen) →
      dedupeById seen l = l := by
  intro l
  induction l with
  | nil => intro seen _ _; rfl
  | cons p rest ih =>
    intro seen hnd hseen
    rw [List.map_cons, List.nodup_cons] at hnd
    have hp : p.id ∉ seen := hseen p (List.mem_cons.mpr (Or.inl rfl))
    simp only [dedupeById, if_neg hp]
    rw [ih (p.id :: seen) hnd.2]
    intro q hq hqmem
    rcases List.mem_cons.mp hqmem with hh | hh
    · exact hnd.1 (hh ▸ List.mem_map.mpr ⟨q, hq, rfl⟩)
    · exact hseen q (List.mem_cons.mpr (Or.inr hq)) hh

/-! ### Claim theorems -/

/-- C1 (counterexample): a batch with one pending patient whose storage
operation fails is stopped, but no completion broadcast is posted at all,
and even a fully successful run issues no network request, refuting the
claim that the reconciler attempts a network operation per record and
that every batch ends with exactly one completion broadcast. -/
theorem syncPendingData_claim_counterexample :
    (pendingSorted [{ id := "PAT-1", syncStatus := some SyncStatus.pending,
                      syncedAt := none, updatedAt := none,
                      info := "Alice 34 chest pain" }]).length = 1 ∧
    (syncPendingData (fun _ => false) "2026-10-11T00:00:00Z"
      [{ id := "PAT-1", syncStatus := some SyncStatus.pending,
         syncedAt := none, updatedAt := none,
         info := "Alice 34 chest pain" }]).broadcast = none ∧
    (syncPendingData (fun _ => true) "2026-10-11T00:00:00Z"
      [{ id := "PAT-1", syncStatus := some SyncStatus.pending,
         syncedAt := none, updatedAt := none,
         info := "Alice 34 chest pain" }]).network = [] := by
  decide

/-- C1 (amended): on a store with distinct record ids the reconciler reads
the pending records in ascending key order, issues no network request,
marks each processed record synced with a syncedAt stamp, stops at the
first failing storage operation leaving that record and all later ones
untouched, and posts one SYNC_COMPLETE message carrying the size of the
pending batch to every connected client exactly when the batch was
nonempty and fully processed; a stopped or empty batch posts nothing. -/
theorem syncPendingData_spec (ok : String → Bool) (now : String) (store : Store)
    (hid : (store.map Patient.id).Nodup) :
    (syncPendingData ok now store).network = [] ∧
    (syncPendingData ok now store).broadcast =
      (if (pendingSorted store).isEmpty then none
       else if (pendingSorted store).all (fun p => ok p.id) then
         some { msgType := "SYNC_COMPLETE", syncedCount := (pendingSorted store).length }
       else none) ∧
    (∀ pid,
      findStore (syncPendingData ok now store).store pid =
        if pid ∈ ((pendingSorted store).takeWhile (fun p => ok p.id)).map Patient.id
        then (findStore store pid).map (markSyncedPatient now)
        else findStore store pid) := by
  cases hemp : (pendingSorted store).isEmpty with
  | true =>
    have hnil : pendingSorted store = [] := by simpa using hemp
    refine ⟨?_, ?_, ?_⟩
    · simp [syncPendingData, hemp]
    · simp [syncPendingData, hemp]
    · intro pid
      simp [syncPendingData, hemp, hnil]
  | false =>
    have hflag := syncLoop_flag ok now (pendingSorted store) store
    have hfind := syncLoop_find ok now (pendingSorted store) store
      (pendingSorted_nodup store hid)
    refine ⟨?_, ?_, ?_⟩
    · simp [syncPendingData, hemp]
    · simp [syncPendingData, hemp, hflag]
    · intro pid
      simpa [syncPendingData, hemp] using hfind pid

/-- C1 witness: three pending patients, all storage operations succeed:
the run broadcasts one completion message with count 3. -/
theorem syncPendingData_spec_witness :
    ((demoStore.map Patient.id).Nodup) ∧
    (syncPendingData (fun _ => true) "T" demoStore).broadcast =
      some { msgType := "SYNC_COMPLETE", syncedCount := 3 } := by
  refine ⟨by decide, ?_⟩
  have h := (syncPendingData_spec (fun _ => true) "T" demoStore (by decide)).2.1
  rw [h]
  decide

/-- C2: every bridge call through the message envelope resolves exactly
once: with the answer payload when the agent answers within the 5000 ms
timeout, and with the locally synthesized timeout failure when the agent
answers late or never. -/
theorem sendMessageToSW_resolves (reply : Option (Nat × SWReply)) :
    (reply = none → sendMessageToSW reply = timeoutReply) ∧
    (∀ t r, reply = some (t, r) → t < 5000 → sendMessageToSW reply = r) ∧
    (∀ t r, reply = some (t, r) → 5000 ≤ t → sendMessageToSW reply = timeoutReply) := by
  refine ⟨?_, ?_, ?_⟩
  · intro h; subst h; rfl
  · intro t r h hlt; subst h; simp [sendMessageToSW, hlt]
  · intro t r h hge; subst h; simp [sendMessageToSW, Nat.not_lt.mpr hge]

/-- C2 witness: an answer at 3000 ms is delivered as is, an answer at
6000 ms and a missing answer both resolve to the timeout failure. -/
theorem sendMessageToSW_resolves_witness :
    sendMessageToSW (some (3000, { success := true, error := none })) =
      { success := true, error := none } ∧
    sendMessageToSW (some (6000, { success := true, error := none })) = timeoutReply ∧
    sendMessageToSW none = timeoutReply :=
  ⟨(sendMessageToSW_resolves _).2.1 3000 _ rfl (by decide),
   (sendMessageToSW_resolves _).2.2 6000 _ rfl (by decide),
   (sendMessageToSW_resolves none).1 rfl⟩

/-- C3 (code bug): with the offline document missing on the server, addAll
rejects and caches nothing, but the final catch handler swallows the
rejection, so the promise handed to waitUntil fulfills: the install event
completes successfully with an empty shell cache and without skipWaiting,
although the specification requires the entire install to fail. -/
theorem installEvent_swallows_asset_failure :
    (fun u => u != OFFLINE_URL) "/offline.html" = false ∧
    installEvent (fun u => u != OFFLINE_URL) =
      { settled := true, shellCache := [], skipWaitingCalled := false } := by
  decide

/-- C4 (counterexample): the stale dynamic generation upline-dynamic-v1 is
neither the current shell nor the current dynamic name, yet the activation
cleanup keeps it because it lacks the upline-triage- marker, so the
cleanup does not delete every non-current generation and the survivors
are not exactly the two current generations. -/
theorem activateCleanup_counterexample :
    activateCleanup ["upline-dynamic-v1", CACHE_NAME, DYNAMIC_CACHE] =
      ["upline-dynamic-v1", CACHE_NAME, DYNAMIC_CACHE] ∧
    "upline-dynamic-v1" ≠ CACHE_NAME ∧
    "upline-dynamic-v1" ≠ DYNAMIC_CACHE := by
  decide

/-- C4 (amended): the activation cleanup deletes exactly the caches that
carry the upline-triage- marker and are neither the current shell nor the
current dynamic name; it is idempotent, a second run deletes nothing, and
a cache survives iff it was present and not selected for deletion. -/
theorem activateCleanup_spec (names : List String) :
    deletedCaches (activateCleanup names) = [] ∧
    activateCleanup (activateCleanup names) = activateCleanup names ∧
    (∀ n, n ∈ activateCleanup names ↔ n ∈ names ∧ shouldDeleteCache n = false) ∧
    (∀ n, n ∈ deletedCaches names ↔ n ∈ names ∧ shouldDeleteCache n = true) := by
  refine ⟨?_, ?_, ?_, ?_⟩
  · simp [deletedCaches, activateCleanup, List.filter_filter]
  · simp [activateCleanup, List.filter_filter]
  · intro n; simp [activateCleanup, List.mem_filter]
  · intro n; simp [deletedCaches, List.mem_filter]

/-- C4 witness: on a concrete starting set the second cleanup run changes
nothing and deletes nothing. -/
theorem activateCleanup_spec_witness :
    activateCleanup (activateCleanup ["upline-triage-v1.0.0", CACHE_NAME, DYNAMIC_CACHE]) =
      activateCleanup ["upline-triage-v1.0.0", CACHE_NAME, DYNAMIC_CACHE] ∧
    deletedCaches (activateCleanup ["upline-triage-v1.0.0", CACHE_NAME, DYNAMIC_CACHE]) = [] :=
  ⟨(activateCleanup_spec ["upline-triage-v1.0.0", CACHE_NAME, DYNAMIC_CACHE]).2.1,
   (activateCleanup_spec ["upline-triage-v1.0.0", CACHE_NAME, DYNAMIC_CACHE]).1⟩

/-- C5 (counterexample): when the network fails and the cache misses, the
synthesized body carries the error text You are offline with a capital Y,
not the claimed lowercase form. -/
theorem apiFirstStrategy_counterexample :
    (apiFirstStrategy .networkError none "T0").response = .ok (offlineApiResponse "T0") ∧
    (offlineApiResponse "T0").body.jsonField "error" = some "You are offline" ∧
    (offlineApiResponse "T0").body.jsonField "error" ≠ some "you are offline" := by
  decide

/-- C5 (amended): for every API request with failed network and missing
cache the strategy returns the synthesized JSON body with fields error =
You are offline, timestamp and cache = miss, and for all inputs the
strategy returns a response, never a rejection. -/
theorem apiFirstStrategy_offline_spec (now : String) :
    (apiFirstStrategy .networkError none now).response = .ok (offlineApiResponse now) ∧
    (offlineApiResponse now).body =
      .json [("error", "You are offline"), ("timestamp", now), ("cache", "miss")] ∧
    (offlineApiResponse now).body.jsonField "error" = some "You are offline" ∧
    (∀ network cached, ∃ resp,
      (apiFirstStrategy network cached now).response = .ok resp) := by
  refine ⟨rfl, rfl, rfl, ?_⟩
  intro network cached
  cases network with
  | ok resp => exact ⟨resp, rfl⟩
  | networkError =>
    cases cached with
    | some c => exact ⟨c, rfl⟩
    | none => exact ⟨offlineApiResponse now, rfl⟩

/-- C6: the navigation strategy always yields a response, never a raw
network error: on network failure it serves the cached copy of the
request if present, else the cached offline document, else the generated
inline offline page. -/
theorem navigationFirstStrategy_spec (network : FetchResult)
    (cached cachedOffline : Option Response) :
    (∃ resp, (navigationFirstStrategy network cached cachedOffline).response = .ok resp) ∧
    ((navigationFirstStrategy .networkError cached cachedOffline).response =
      .ok (match cached with
           | some c => c
           | none =>
             match cachedOffline with
             | some o => o
             | none => inlineOfflinePage)) := by
  constructor
  · cases network with
    | ok resp => exact ⟨resp, rfl⟩
    | networkError =>
      cases cached with
      | some c => exact ⟨c, rfl⟩
      | none =>
        cases cachedOffline with
        | some o => exact ⟨o, rfl⟩
        | none => exact ⟨inlineOfflinePage, rfl⟩
  · cases cached with
    | some c => rfl
    | none =>
      cases cachedOffline with
      | some o => rfl
      | none => rfl

/-- C7: after any cleanup pass the dynamic cache holds at most 100 keys,
and when the bound was exceeded the deleted keys are exactly the oldest
prefix in insertion order, leaving the 100 most recently inserted. -/
theorem cleanupCache_spec (keys : List String) :
    (cleanupCache keys).length ≤ 100 ∧
    (100 < keys.length →
      cleanupCache keys = keys.drop (keys.length - 100) ∧
      cleanupDeleted keys = keys.take (keys.length - 100) ∧
      (cleanupCache keys).length = 100 ∧
      cleanupDeleted keys ++ cleanupCache keys = keys) := by
  unfold cleanupCache cleanupDeleted
  by_cases h : 100 < keys.length
  · rw [if_pos h, if_pos h]
    refine ⟨?_, fun _ => ⟨rfl, rfl, ?_, ?_⟩⟩
    · simp; omega
    · simp; omega
    · exact List.take_append_drop _ _
  · rw [if_neg h, if_neg h]
    exact ⟨by omega, fun hc => absurd hc h⟩

/-- C7 witness: a cache of 101 keys is trimmed to exactly 100. -/
theorem cleanupCache_spec_witness :
    100 < (List.replicate 101 "u").length ∧
    (cleanupCache (List.replicate 101 "u")).length = 100 :=
  ⟨by decide, ((cleanupCache_spec (List.replicate 101 "u")).2 (by decide)).2.2.1⟩

/-- C8: savePatient stores the record under its unchanged id with a fresh
updatedAt stamp; syncStatus is initialized to pending exactly when the
incoming record carried none, and an existing syncStatus is preserved. -/
theorem savePatient_spec (now : String) (p : Patient) (store : Store) :
    findStore (savePatient now p store) p.id = some (stampPatient now p) ∧
    (stampPatient now p).id = p.id ∧
    (stampPatient now p).updatedAt = some now ∧
    (p.syncStatus = none → (stampPatient now p).syncStatus = some SyncStatus.pending) ∧
    (∀ s, p.syncStatus = some s → (stampPatient now p).syncStatus = some s) := by
  refine ⟨?_, rfl, rfl, ?_, ?_⟩
  · exact findStore_putStore_self (stampPatient now p) store
  · intro h; simp [stampPatient, h]
  · intro s h; simp [stampPatient, h]

/-- C8 witness: a record without a tag is stamped pending, a record
already tagged synced keeps its tag. -/
theorem savePatient_spec_witness :
    (({ id := "PAT-9", syncStatus := none, syncedAt := none,
          updatedAt := none, info := "new" } : Patient).syncStatus = none) ∧
    (stampPatient "T9" { id := "PAT-9", syncStatus := none, syncedAt := none,
                         updatedAt := none, info := "new" }).syncStatus =
      some SyncStatus.pending ∧
    (stampPatient "T9" { id := "PAT-8", syncStatus := some SyncStatus.synced,
                         syncedAt := none, updatedAt := none,
                         info := "old" }).syncStatus =
      some SyncStatus.synced :=
  ⟨rfl,
   (savePatient_spec "T9" _ []).2.2.2.1 rfl,
   (savePatient_spec "T9" _ []).2.2.2.2 SyncStatus.synced rfl⟩

/-- C9: exporting the full patient collection and importing the resulting
document into an empty store returns exactly the original records,
provided the records carry distinct ids (the store keys them uniquely). -/
theorem exportImport_roundTrip (now user : String) (ps : List Patient)
    (hid : (ps.map Patient.id).Nodup) :
    importData (exportData now user ps) [] = ps := by
  unfold importData exportData
  rw [List.append_nil]
  exact dedupeById_of_nodup ps [] hid (fun p _ h => List.not_mem_nil _ h)

/-- C9 witness: the three-record collection survives the round trip
unchanged. -/
theorem exportImport_roundTrip_witness :
    ((demoStore.map Patient.id).Nodup) ∧
    importData (exportData "T" "medic-1" demoStore) [] = demoStore :=
  ⟨by decide, exportImport_roundTrip "T" "medic-1" demoStore (by decide)⟩

/-- C10: with all ids distinct, CLEAR_PENDING_DATA marks every pending
record synced with a syncedAt stamp while leaving the others unchanged,
makes no network request, and posts exactly one success reply carrying
the pending count; when the index read fails, no reply is posted and the
store is untouched. -/
theorem clearPendingData_spec (now : String) (store : Store)
    (hid : (store.map Patient.id).Nodup) :
    (clearPendingData now true store).network = [] ∧
    (clearPendingData now true store).reply =
      some { success := true, cleared := (pendingSorted store).length } ∧
    (∀ pid, findStore (clearPendingData now true store).store pid =
      (findStore store pid).map
        (fun q => if isPending q then markSyncedPatient now q else q)) ∧
    clearPendingData now false store = { store := store, reply := none, network := [] } := by
  refine ⟨rfl, rfl, ?_, rfl⟩
  intro pid
  have hnd := pendingSorted_nodup store hid
  have hmem : ∀ p ∈ pendingSorted store, findStore store p.id = some p := by
    intro p hp
    exact findStore_of_mem_nodup store hid p ((mem_pendingSorted store p).mp hp).1
  have h := foldPut_find now (pendingSorted store) store hnd hmem pid
  show findStore ((pendingSorted store).foldl
    (fun s p => putStore (markSyncedPatient now p) s) store) pid = _
  rw [h]
  by_cases hin : pid ∈ (pendingSorted store).map Patient.id
  · obtain ⟨q, hq, hqp⟩ := (mem_pendingSorted_ids store hid pid).mp hin
    rw [if_pos hin, hq]
    simp [hqp]
  · rw [if_neg hin]
    cases hf : findStore store pid with
    | none => rfl
    | some q =>
      have hnp : ¬ isPending q = true := by
        intro hq
        exact hin ((mem_pendingSorted_ids store hid pid).mpr ⟨q, hf, hq⟩)
      simp [hnp]

/-- C10 witness: on a store with one pending and one synced record the
reply reports one cleared record. -/
theorem clearPendingData_spec_witness :
    ((demoMixedStore.map Patient.id).Nodup) ∧
    (clearPendingData "T1" true demoMixedStore).reply =
      some { success := true, cleared := 1 } := by
  refine ⟨by decide, ?_⟩
  have h := (clearPendingData_spec "T1" demoMixedStore (by decide)).2.1
  rw [h]
  decide

end TriagePWA
